import Mathlib

/-!
# tcp-server-client: length-prefixed transport, chat room and chat bot

A shallow embedding of `numeric_type_header.hpp`, `tcp.hpp`, `chatroom.cpp` and
`chatbot.cpp`.

* Bytes (`unsigned char`) and lengths (`std::size_t`, 64 bit) are natural numbers;
  every operation that can leave the machine range is reduced explicitly.
* A `std::array` / `std::vector<char>` / `std::string` is a list.
* A connection is a record of the private members of `tcp_connection<T>` together
  with what the outside world can observe of it: the application hooks it has
  called, the read it has outstanding on the socket, the writes it has
  outstanding on the socket and the exception that has left one of its handlers.  Every function body handed to `io_service::post`
  or to `async_read` / `async_write` is a state transformer that the reactor
  applies when it runs that body.
-/

namespace TcpServerClient

/-! ## numeric_type_header.hpp (instantiated at `std::size_t`) -/

namespace numeric_type_header

/-- The enumerator `bits_in_byte`. -/
def bits_in_byte : Nat := 8

/-- The enumerator `length = sizeof(std::size_t)`. -/
def length : Nat := 8

/-- Number of values of `std::size_t`. -/
def size_modulus : Nat := 2 ^ (bits_in_byte * length)

/-- The value `static_cast<std::size_t>(-1)`, the largest `std::size_t`. -/
def size_max : Nat := size_modulus - 1

/-- The loop body of `decode_header`: `body_length <<= bits_in_byte; body_length |= byte;`
on a `std::size_t` accumulator. -/
def decode_step (body_length byte : Nat) : Nat :=
  ((body_length <<< bits_in_byte) % size_modulus) ||| byte

/-- The function `decode_header`: fold the bytes of the header into the accumulator,
first byte first. -/
def decode_header (header : List Nat) : Nat :=
  header.foldl decode_step 0

/-- The right-hand side of the assignment in `encode_header` for loop counter `i`:
`static_cast<unsigned char>(body_length) / (static_cast<std::size_t>(1) << (bits_in_byte * i))`,
stored into an `unsigned char`.  The cast binds tighter than the division, so the
dividend is `body_length` reduced to one byte. -/
def encode_byte (body_length i : Nat) : Nat :=
  ((body_length % 256) / ((1 <<< (bits_in_byte * i)) % size_modulus)) % 256

/-- The function `encode_header`: the k-th byte of the array is written with loop counter
`i = length - 1 - k` (`i` starts at `length - 1` and is decremented after each byte). -/
def encode_header (body_length : Nat) : List Nat :=
  (List.range length).map fun k => encode_byte body_length (length - 1 - k)

end numeric_type_header

open numeric_type_header

/-! ## tcp.hpp: `tcp_connection<T>` -/

/-- A call made by the connection into its application (the four required methods). -/
inductive Call where
  | start_connection
  | read_body (message : List Nat)
  | handle_write_error (error : Nat) (message : List Nat)
  | close_hook (error : Nat)
  deriving DecidableEq, Repr

/-- The read operations a connection issues on its socket. -/
inductive ReadOp where
  | header
  | body
  deriving DecidableEq, Repr

/-- The exceptions `std::vector<char>::resize` can throw. -/
inductive VectorError where
  | length_error
  | bad_alloc
  deriving DecidableEq, Repr

/-- The value of `std::vector<char>::max_size()` on a 64-bit platform, the largest
`std::ptrdiff_t`. -/
def vector_max_size : Nat := 2 ^ 63 - 1

/-- The members of `tcp_connection<T>` and its observable surroundings.  A
`boost::system::error_code` is its integer value, `0` being the default-constructed
"no error" code. -/
structure tcp_connection where
  /-- Whether `socket_` is open (`socket_.close()` clears it). -/
  socket_open : Bool
  /-- The member `read_header_`. -/
  read_header_ : List Nat
  /-- The member `read_message_`. -/
  read_message_ : List Nat
  /-- The member `write_messages_`, front of the queue first. -/
  write_messages_ : List (List Nat)
  /-- The `async_read` issued on the socket whose handler has not run yet. -/
  pending_read : Option ReadOp
  /-- The `async_write` operations issued on the socket whose handlers have not run
  yet, in the order they were issued. -/
  writes_in_flight : List (List Nat)
  /-- Every buffer handed to `async_write` so far, in the order of issue. -/
  issued : List (List Nat)
  /-- The calls made into the application so far, oldest first. -/
  hooks : List Call
  /-- The largest size to which the allocator of the process lets `read_message_` grow
  (at least the capacity the vector already has); a `resize` beyond it fails with
  `std::bad_alloc`. -/
  resize_limit : Nat
  /-- The exception that has left a completion handler of this connection and so
  `io_service::run`, if any. -/
  escaped : Option VectorError
  deriving DecidableEq, Repr

namespace tcp_connection

/-- The function `create`: a fresh connection on an open socket, nothing read, nothing
queued, in a process whose allocator sets no limit below `max_size()`. -/
def create : tcp_connection :=
  { socket_open := true
    read_header_ := List.replicate length 0
    read_message_ := []
    write_messages_ := []
    pending_read := none
    writes_in_flight := []
    issued := []
    hooks := []
    resize_limit := vector_max_size
    escaped := none }

/-- The call `std::vector<char>::resize(n)`: `std::length_error` when `n` exceeds
`max_size()`, `std::bad_alloc` when the allocator cannot supply `n` bytes, and otherwise
the first `n` elements padded with zeros.  A failing call leaves the vector as it was. -/
def resize (resize_limit : Nat) (v : List Nat) (n : Nat) : Except VectorError (List Nat) :=
  if vector_max_size < n then throw VectorError.length_error
  else if resize_limit < n then throw VectorError.bad_alloc
  else pure (v.take n ++ List.replicate (n - v.length) 0)

/-- The body posted by `close(error)`: `application_->close_hook(self, error); socket_.close();`.
There is no test of any earlier close. -/
def close (error : Nat) (c : tcp_connection) : tcp_connection :=
  { c with hooks := c.hooks ++ [Call.close_hook error], socket_open := false }

/-- The function `do_read_header`, up to its `async_read` of `header::length` bytes. -/
def do_read_header (c : tcp_connection) : tcp_connection :=
  { c with pending_read := some ReadOp.header }

/-- The function `do_read_body`, up to its `async_read` of `read_message_.size()` bytes. -/
def do_read_body (c : tcp_connection) : tcp_connection :=
  { c with pending_read := some ReadOp.body }

/-- The function `start`. -/
def start (c : tcp_connection) : tcp_connection :=
  do_read_header { c with hooks := c.hooks ++ [Call.start_connection] }

/-- The function `do_write`: return if the queue is empty, otherwise pop the front message
and hand it to `async_write`. -/
def do_write (c : tcp_connection) : tcp_connection :=
  match c.write_messages_ with
  | [] => c
  | message :: rest =>
    { c with
      write_messages_ := rest
      writes_in_flight := c.writes_in_flight ++ [message]
      issued := c.issued ++ [message] }

/-- The body posted by `write(write_body)`: build header followed by body, push it on the
queue, call `do_write`. -/
def write (write_body : List Nat) (c : tcp_connection) : tcp_connection :=
  let write_message := encode_header write_body.length ++ write_body
  do_write { c with write_messages_ := c.write_messages_ ++ [write_message] }

/-- The completion handler of the `async_read` in `do_read_header`; `data` is what the
read stored into `read_header_` when it succeeded.  The handler has no `try`: an exception
of `read_message_.resize(body_length)` leaves it before `do_read_body()` is reached. -/
def on_read_header (error : Nat) (data : List Nat) (c : tcp_connection) : tcp_connection :=
  let c := { c with pending_read := none }
  if error ≠ 0 then close error c
  else
    let c := { c with read_header_ := data }
    let body_length := decode_header c.read_header_
    if body_length ≠ size_max then
      match resize c.resize_limit c.read_message_ body_length with
      | Except.ok resized => do_read_body { c with read_message_ := resized }
      | Except.error e => { c with escaped := some e }
    else close 0 c

/-- The completion handler of the `async_read` in `do_read_body`; `data` is what the read
stored into `read_message_` when it succeeded, and `app` is the value the application
returns from `read_body`. -/
def on_read_body (app : List Nat → Bool) (error : Nat) (data : List Nat)
    (c : tcp_connection) : tcp_connection :=
  let c := { c with pending_read := none }
  if error ≠ 0 then close error c
  else
    let c := { c with read_message_ := data }
    let c := { c with hooks := c.hooks ++ [Call.read_body c.read_message_] }
    if app c.read_message_ then do_read_header c else close 0 c

/-- The messages the application has been given through `read_body`, oldest first. -/
def delivered (c : tcp_connection) : List (List Nat) :=
  c.hooks.filterMap fun call => match call with
    | Call.read_body message => some message
    | _ => none

/-- The bytes the connection has put on the wire: the buffers handed to `async_write`,
in the order of issue. -/
def wire (c : tcp_connection) : List Nat :=
  c.issued.flatten

/-- The sender calls `write` on each payload in order. -/
def write_all (payloads : List (List Nat)) (c : tcp_connection) : tcp_connection :=
  payloads.foldl (fun c write_body => write write_body c) c

/-- The read side driven by the bytes of `stream`: the outstanding read completes without
error as soon as the stream holds the bytes it asked for, and stays outstanding when it
does not.  `fuel` bounds the number of completions. -/
def receive (app : List Nat → Bool) : Nat → List Nat → tcp_connection → tcp_connection
  | 0, _, c => c
  | fuel + 1, stream, c =>
    match c.pending_read with
    | none => c
    | some ReadOp.header =>
      if length ≤ stream.length then
        receive app fuel (stream.drop length) (on_read_header 0 (stream.take length) c)
      else c
    | some ReadOp.body =>
      if c.read_message_.length ≤ stream.length then
        receive app fuel (stream.drop c.read_message_.length)
          (on_read_body app 0 (stream.take c.read_message_.length) c)
      else c

/-- The read side run over a whole stream: a frame takes two completions and at least
`length` bytes, so `2 * stream.length + 2` completions are never exhausted. -/
def deliver (app : List Nat → Bool) (stream : List Nat) (c : tcp_connection) : tcp_connection :=
  receive app (2 * stream.length + 2) stream c

end tcp_connection

/-! ## chatroom.cpp: `chat_room` -/

/-- The class `chat_room`: its only member is `connections_`, a `std::set` of connection
pointers.  A pointer is a natural number and the set is the list of its elements in
increasing order. -/
structure chat_room where
  /-- The member `connections_`. -/
  connections_ : List Nat
  deriving DecidableEq, Repr

namespace chat_room

/-- The call `std::set::insert`: put `conn` at its place in the order unless it is already
there. -/
def set_insert (conn : Nat) : List Nat → List Nat
  | [] => [conn]
  | x :: xs =>
    if conn < x then conn :: x :: xs
    else if conn = x then x :: xs
    else x :: set_insert conn xs

/-- The call `std::set::erase` by key: drop the element equal to `conn`. -/
def set_erase (conn : Nat) (s : List Nat) : List Nat :=
  s.filter fun x => x ≠ conn

/-- A room without connections, as `std::make_shared<chat_room>()` builds it. -/
def empty : chat_room :=
  { connections_ := [] }

/-- The method `start_connection`. -/
def start_connection (conn : Nat) (room : chat_room) : chat_room :=
  { room with connections_ := set_insert conn room.connections_ }

/-- The method `close_hook`. -/
def close_hook (conn : Nat) (room : chat_room) : chat_room :=
  { room with connections_ := set_erase conn room.connections_ }

/-- The method `read_body`: the return value and the calls `other_conn->write(message)` it
makes, as pairs of target connection and body, in the order of the loop. -/
def read_body (conn : Nat) (message : List Nat) (room : chat_room) :
    Bool × List (Nat × List Nat) :=
  (true, (room.connections_.filter fun other_conn => other_conn ≠ conn).map
    fun other_conn => (other_conn, message))

/-- The two calls that change the room. -/
inductive RoomEvent where
  | start_connection (conn : Nat)
  | close_hook (conn : Nat)
  deriving DecidableEq, Repr

/-- One event applied to the room. -/
def room_step (room : chat_room) : RoomEvent → chat_room
  | RoomEvent.start_connection conn => start_connection conn room
  | RoomEvent.close_hook conn => close_hook conn room

/-- A sequence of events applied to the room, oldest first. -/
def room_run (room : chat_room) (events : List RoomEvent) : chat_room :=
  events.foldl room_step room

/-- A connection is registered after `events` when some `start_connection` for it is
followed by no `close_hook` for it. -/
def Registered (events : List RoomEvent) (conn : Nat) : Prop :=
  ∃ before after, events = before ++ RoomEvent.start_connection conn :: after ∧
    RoomEvent.close_hook conn ∉ after

/-- How many of the writes made by a broadcast go to connection `conn`. -/
def writes_to (conn : Nat) (writes : List (Nat × List Nat)) : Nat :=
  (writes.map Prod.fst).count conn

end chat_room

/-! ## chatbot.cpp: `chat_bot` -/

namespace chat_bot

/-- The exceptions the bot code can throw: `std::out_of_range` (from `at`, `substr` and
`std::stoi`), `std::invalid_argument` (from `std::stoi`) and the string literal thrown for
a bad operator. -/
inductive Exn where
  | out_of_range
  | invalid_argument
  | bad_operator
  deriving DecidableEq, Repr

/-- How an evaluation can fail to produce a value: a C++ exception, which a handler can
catch, or an operation whose behaviour the language leaves undefined (`int` division by
zero, `int` overflow), which no handler catches. -/
inductive Fault where
  | thrown (e : Exn)
  | undefined_behaviour
  deriving DecidableEq, Repr

/-- The constant `std::string::npos`, the largest `std::size_t`. -/
def npos : Nat := 2 ^ 64 - 1

/-- Addition of `std::size_t` values. -/
def size_add (a b : Nat) : Nat := (a + b) % 2 ^ 64

/-- Search from index `i`: the index of the first character of `s` satisfying `p`, counted
from `i`, or `npos`. -/
def find_if (p : Char → Bool) : List Char → Nat → Nat
  | [], _ => npos
  | c :: cs, i => if p c then i else find_if p cs (i + 1)

/-- The call `s.find(ch)`. -/
def find (s : List Char) (ch : Char) : Nat :=
  find_if (fun c => c = ch) s 0

/-- The call `s.find_first_not_of(ch)`. -/
def find_first_not_of (s : List Char) (ch : Char) : Nat :=
  find_if (fun c => c ≠ ch) s 0

/-- The call `s.substr(pos)`: throws when `pos` is past the end. -/
def substr_from (s : List Char) (pos : Nat) : Except Fault (List Char) :=
  if pos ≤ s.length then pure (s.drop pos) else throw (Fault.thrown Exn.out_of_range)

/-- The call `s.substr(pos, n)`: throws when `pos` is past the end, otherwise at most `n`
characters from `pos`. -/
def substr (s : List Char) (pos n : Nat) : Except Fault (List Char) :=
  if pos ≤ s.length then pure ((s.drop pos).take n) else throw (Fault.thrown Exn.out_of_range)

/-- The call `s.at(pos)`: throws when `pos` is not an index of `s`. -/
def string_at (s : List Char) (pos : Nat) : Except Fault Char :=
  match s.get? pos with
  | some c => pure c
  | none => throw (Fault.thrown Exn.out_of_range)

/-- The function `isspace` of the C locale. -/
def isspace (c : Char) : Bool :=
  c = ' ' || c = '\t' || c = '\n' || c = '\x0b' || c = '\x0c' || c = '\r'

/-- Whether `c` is a decimal digit. -/
def isdigit (c : Char) : Bool :=
  48 ≤ c.toNat && c.toNat ≤ 57

/-- The value of a decimal digit. -/
def digit_value (c : Char) : Nat :=
  c.toNat - 48

/-- The smallest `int`. -/
def INT_MIN : Int := -2147483648

/-- The largest `int`. -/
def INT_MAX : Int := 2147483647

/-- Whether an integer is a value of `int`. -/
def fits_int (r : Int) : Bool :=
  decide (INT_MIN ≤ r) && decide (r ≤ INT_MAX)

/-- The number a run of decimal digits denotes. -/
def digits_value (ds : List Char) : Nat :=
  ds.foldl (fun acc d => acc * 10 + digit_value d) 0

/-- The function `std::stoi(s)` in base 10: skip leading white space, take an optional
sign, convert the longest run of digits that follows and ignore what comes after it;
`std::invalid_argument` when there is no digit, `std::out_of_range` when the number is
not a value of `int`. -/
def stoi (s : List Char) : Except Fault Int :=
  let body := s.dropWhile isspace
  let negative : Bool := body.head? = some '-'
  let unsigned := if body.head? = some '-' ∨ body.head? = some '+' then body.tail else body
  let ds := unsigned.takeWhile isdigit
  if ds = [] then throw (Fault.thrown Exn.invalid_argument)
  else
    let magnitude : Int := digits_value ds
    let value : Int := if negative then -magnitude else magnitude
    if fits_int value then pure value else throw (Fault.thrown Exn.out_of_range)

/-- The character of a decimal digit. -/
def digit_char (d : Nat) : Char :=
  Char.ofNat (48 + d)

/-- The decimal digits of `n`, most significant first; `fuel` bounds their number. -/
def nat_digits : Nat → Nat → List Char
  | 0, _ => []
  | fuel + 1, n =>
    if n < 10 then [digit_char n] else nat_digits fuel (n / 10) ++ [digit_char (n % 10)]

/-- The decimal rendering of a natural number (a number has at most `n + 1` digits). -/
def nat_to_string (n : Nat) : List Char :=
  nat_digits (n + 1) n

/-- The function `std::to_string(int)`: a minus sign for a negative value, then the
decimal digits of the magnitude. -/
def to_string (v : Int) : List Char :=
  if v < 0 then '-' :: nat_to_string v.natAbs else nat_to_string v.natAbs

/-- The result of an `int` operation whose mathematical value is `r`: the value when it
is representable, undefined behaviour when it overflows. -/
def int_result (r : Int) : Except Fault Int :=
  if fits_int r then pure r else throw Fault.undefined_behaviour

/-- The method `calculate`. -/
def calculate (message : List Char) : Except Fault Int := do
  let pos_of_first_space := find message ' '
  let first_number ← substr message 0 pos_of_first_space
  let pos_of_space_before_second := size_add pos_of_first_space 2
  let operator_char ← string_at message (size_add pos_of_first_space 1)
  let second_number ← substr_from message (size_add pos_of_space_before_second 1)
  let first_int ← stoi first_number
  let second_int ← stoi second_number
  if operator_char = '+' then int_result (first_int + second_int)
  else if operator_char = '-' then int_result (first_int - second_int)
  else if operator_char = '/' then
    if second_int = 0 then throw Fault.undefined_behaviour
    else int_result (Int.tdiv first_int second_int)
  else if operator_char = '*' then int_result (first_int * second_int)
  else throw (Fault.thrown Exn.bad_operator)

/-- The method `response`: the bodies it passes to `send`, in order.  The handler
`catch(...)` turns every exception of `calculate` into the reply "Invalid input to eval";
undefined behaviour is not an exception and passes through. -/
def response (message : List Char) : Except Fault (List (List Char)) := do
  let pos := find_first_not_of message ' '
  let trimmed ← substr_from message (if pos ≠ npos then pos else 0)
  let pos_of_first_space := find trimmed ' '
  let first_word ← substr trimmed 0 pos_of_first_space
  let the_rest ← substr_from trimmed (size_add pos_of_first_space 1)
  if first_word = "!echo".toList then pure [the_rest]
  else if first_word = "!eval".toList then
    match calculate the_rest with
    | Except.ok answer => pure [to_string answer]
    | Except.error (Fault.thrown _) => pure ["Invalid input to eval".toList]
    | Except.error Fault.undefined_behaviour => throw Fault.undefined_behaviour
  else pure []

/-- The method `read_body`: the return value and the bodies written back on the
connection. -/
def read_body (message : List Char) : Except Fault (Bool × List (List Char)) := do
  let replies ← response message
  pure (true, replies)

/-- Follows the words of the specification: the exact value of `a op b` for an operator
among `+ - * /`, the division truncating toward zero. -/
def exact_result (op : Char) (a b : Int) : Int :=
  if op = '+' then a + b
  else if op = '-' then a - b
  else if op = '*' then a * b
  else Int.tdiv a b

/-- Follows the words of the specification: `text` is the integer `v` written in decimal,
a non-empty run of decimal digits with an optional minus sign in front. -/
def Decimal (text : List Char) (v : Int) : Prop :=
  ∃ ds : List Char, ds ≠ [] ∧ (∀ c ∈ ds, isdigit c = true) ∧
    ((text = ds ∧ v = (digits_value ds : Int)) ∨
      (text = '-' :: ds ∧ v = -(digits_value ds : Int)))

end chat_bot

/-! ## Header codec -/

set_option maxRecDepth 100000

namespace numeric_type_header

theorem decode_step_eq (body_length byte : Nat) (h : byte < 256) :
    decode_step body_length byte = 256 * (body_length % 72057594037927936) + byte := by
  unfold decode_step bits_in_byte size_modulus bits_in_byte length
  have h1 : (body_length <<< 8) % 2 ^ (8 * 8) = 2 ^ 8 * (body_length % 72057594037927936) := by
    rw [Nat.shiftLeft_eq]
    have : (2:Nat) ^ (8 * 8) = 2 ^ 8 * 72057594037927936 := by norm_num
    rw [this, Nat.mul_comm body_length, Nat.mul_mod_mul_left]
  rw [h1, ← Nat.mul_add_lt_is_or (by simpa using h)]

theorem decode_header_eight (b0 b1 b2 b3 b4 b5 b6 b7 : Nat)
    (h0 : b0 < 256) (h1 : b1 < 256) (h2 : b2 < 256) (h3 : b3 < 256)
    (h4 : b4 < 256) (h5 : b5 < 256) (h6 : b6 < 256) (h7 : b7 < 256) :
    decode_header [b0, b1, b2, b3, b4, b5, b6, b7] =
      b0 * 2 ^ 56 + b1 * 2 ^ 48 + b2 * 2 ^ 40 + b3 * 2 ^ 32 + b4 * 2 ^ 24 + b5 * 2 ^ 16
        + b6 * 2 ^ 8 + b7 := by
  simp only [decode_header, List.foldl_cons, List.foldl_nil]
  rw [decode_step_eq _ _ h7, decode_step_eq _ _ h6, decode_step_eq _ _ h5, decode_step_eq _ _ h4,
    decode_step_eq _ _ h3, decode_step_eq _ _ h2, decode_step_eq _ _ h1, decode_step_eq _ _ h0]
  omega

theorem decode_header_max_iff (header : List Nat) (hlen : header.length = length)
    (hbytes : ∀ b ∈ header, b < 256) :
    decode_header header = size_max ↔ header = List.replicate length 255 := by
  unfold length at hlen
  match header, hlen with
  | [b0, b1, b2, b3, b4, b5, b6, b7], _ =>
    simp only [List.mem_cons, List.mem_singleton, forall_eq_or_imp, forall_eq, List.not_mem_nil,
      IsEmpty.forall_iff, implies_true, and_true] at hbytes
    obtain ⟨h0, h1, h2, h3, h4, h5, h6, h7⟩ := hbytes
    rw [decode_header_eight _ _ _ _ _ _ _ _ h0 h1 h2 h3 h4 h5 h6 h7]
    simp only [size_max, size_modulus, bits_in_byte, length, List.replicate, List.cons.injEq,
      and_true]
    omega

end numeric_type_header

/-! ## Connection -/

namespace tcp_connection

theorem hooks_do_read_body (c : tcp_connection) : (do_read_body c).hooks = c.hooks := rfl

theorem resize_ok (resize_limit : Nat) (v : List Nat) (n : Nat)
    (hmax : n ≤ vector_max_size) (hlimit : n ≤ resize_limit) :
    ∃ resized, resize resize_limit v n = Except.ok resized ∧ resized.length = n := by
  refine ⟨v.take n ++ List.replicate (n - v.length) 0, ?_, ?_⟩
  · unfold resize
    rw [if_neg (by omega), if_neg (by omega)]
    rfl
  · simp [List.length_take]
    omega

theorem resize_length_error (resize_limit : Nat) (v : List Nat) (n : Nat)
    (hmax : vector_max_size < n) :
    resize resize_limit v n = Except.error VectorError.length_error := by
  unfold resize
  rw [if_pos hmax]
  rfl

theorem resize_bad_alloc (resize_limit : Nat) (v : List Nat) (n : Nat)
    (hmax : n ≤ vector_max_size) (hlimit : resize_limit < n) :
    resize resize_limit v n = Except.error VectorError.bad_alloc := by
  unfold resize
  rw [if_neg (by omega), if_pos hlimit]
  rfl

end tcp_connection

open tcp_connection

/-- C1 (evaluation at the failing input): the header written for the length 256 is eight
zero bytes, which decodes to 0 and not to 256. -/
theorem C1_round_trip_fails_at_256 :
    encode_header 256 = [0, 0, 0, 0, 0, 0, 0, 0] ∧ decode_header (encode_header 256) = 0 ∧
      decode_header (encode_header 256) ≠ 256 := by
  decide

/-- C2 (evaluation at the failing input): a sender writes payloads of 5, 0 and 1000 bytes
(the last one all zero) and the receiver, whose `read_body` always returns true, is run
over the bytes put on the wire.  The receiver is handed 99 messages and not 3: the first
two payloads, then the first 232 bytes of the third, then 96 empty messages. -/
theorem C2_framed_delivery_fails_at_5_0_1000 :
    delivered (deliver (fun _ => true)
        (wire (write_all [[1, 2, 3, 4, 5], [], List.replicate 1000 0] create)) (start create))
      = [[1, 2, 3, 4, 5], [], List.replicate 232 0] ++ List.replicate 96 [] ∧
    delivered (deliver (fun _ => true)
        (wire (write_all [[1, 2, 3, 4, 5], [], List.replicate 1000 0] create)) (start create))
      ≠ [[1, 2, 3, 4, 5], [], List.replicate 1000 0] := by
  decide

/-- C4 (evaluation at the failing input): two calls of `write` on a started connection
with no write completion in between leave two `async_write` operations outstanding on the
socket, the queue empty; the frames were issued in the order of the calls. -/
theorem C4_two_writes_in_flight :
    (write [2] (write [1] (start create))).writes_in_flight.length = 2 ∧
    (write [2] (write [1] (start create))).write_messages_ = [] ∧
    (write [2] (write [1] (start create))).issued =
      [encode_header 1 ++ [1], encode_header 1 ++ [2]] := by
  decide

/-- C5 (counterexample): the header FF FF FF FF FF FF FF FE is read without error on a
fresh started connection.  It decodes to 2^64 - 2, which is not the largest
`std::size_t`, yet `read_message_` is not resized to that length and no body read is
started: `resize` throws `std::length_error` and the exception leaves the handler. -/
theorem C5_oversized_length_starts_no_body_read :
    decode_header [255, 255, 255, 255, 255, 255, 255, 254] = 18446744073709551614 ∧
    decode_header [255, 255, 255, 255, 255, 255, 255, 254] ≠ size_max ∧
    (on_read_header 0 [255, 255, 255, 255, 255, 255, 255, 254] (start create)).pending_read
      = none ∧
    (on_read_header 0 [255, 255, 255, 255, 255, 255, 255, 254] (start create)).read_message_
      = [] ∧
    (on_read_header 0 [255, 255, 255, 255, 255, 255, 255, 254] (start create)).escaped
      = some VectorError.length_error := by
  decide

/-- C5 (amended): a header read completes without error with eight bytes.  The decoded
length is the largest `std::size_t` exactly when every byte is 0xFF; then no read is
started, `read_body` is not called and the only call into the application is `close_hook`
with the no-error code.  For every other decoded length for which
`read_message_.resize` succeeds (at most `max_size()` and within what the allocator
supplies) the body buffer is resized to exactly that length, a body read is started and
the application is not called.  When `resize` throws, `std::length_error` above
`max_size()` and `std::bad_alloc` beyond the allocator, the exception leaves the handler:
the buffer is unchanged, no read is started and the application is not called. -/
theorem C5_sentinel_header (c : tcp_connection) (header : List Nat)
    (hlen : header.length = length) (hbytes : ∀ b ∈ header, b < 256) :
    (decode_header header = size_max ↔ header = List.replicate length 255) ∧
    (decode_header header = size_max →
      (on_read_header 0 header c).hooks = c.hooks ++ [Call.close_hook 0] ∧
      (on_read_header 0 header c).pending_read = none ∧
      (on_read_header 0 header c).socket_open = false ∧
      delivered (on_read_header 0 header c) = delivered c ∧
      (on_read_header 0 header c).escaped = c.escaped) ∧
    (decode_header header ≠ size_max → decode_header header ≤ vector_max_size →
        decode_header header ≤ c.resize_limit →
      (on_read_header 0 header c).read_message_.length = decode_header header ∧
      (on_read_header 0 header c).pending_read = some ReadOp.body ∧
      (on_read_header 0 header c).hooks = c.hooks ∧
      (on_read_header 0 header c).escaped = c.escaped) ∧
    (decode_header header ≠ size_max → vector_max_size < decode_header header →
      (on_read_header 0 header c).escaped = some VectorError.length_error ∧
      (on_read_header 0 header c).read_message_ = c.read_message_ ∧
      (on_read_header 0 header c).pending_read = none ∧
      (on_read_header 0 header c).hooks = c.hooks) ∧
    (decode_header header ≠ size_max → decode_header header ≤ vector_max_size →
        c.resize_limit < decode_header header →
      (on_read_header 0 header c).escaped = some VectorError.bad_alloc ∧
      (on_read_header 0 header c).read_message_ = c.read_message_ ∧
      (on_read_header 0 header c).pending_read = none ∧
      (on_read_header 0 header c).hooks = c.hooks) := by
  refine ⟨decode_header_max_iff header hlen hbytes, ?_, ?_, ?_, ?_⟩
  · intro hs
    simp [on_read_header, hs, close, delivered, List.filterMap_append]
  · intro hs hmax hlimit
    obtain ⟨resized, hres, hlength⟩ := resize_ok c.resize_limit c.read_message_ _ hmax hlimit
    simp [on_read_header, hs, hres, do_read_body, hlength]
  · intro hs hmax
    simp [on_read_header, hs, resize_length_error c.resize_limit c.read_message_ _ hmax]
  · intro hs hmax hlimit
    simp [on_read_header, hs, resize_bad_alloc c.resize_limit c.read_message_ _ hmax hlimit]

/-- C5 (witness): on a fresh started connection the header of eight 0xFF bytes closes
without error, the header 00 00 00 00 00 00 00 05 starts a body read of 5 bytes, the
header FF FF FF FF FF FF FF FE makes `resize` throw `std::length_error`, and with an
allocator that supplies at most 4 bytes the header of length 5 makes it throw
`std::bad_alloc`. -/
theorem C5_sentinel_header_witness :
    ((on_read_header 0 (List.replicate 8 255) (start create)).hooks =
        [Call.start_connection, Call.close_hook 0] ∧
      (on_read_header 0 (List.replicate 8 255) (start create)).pending_read = none ∧
      (on_read_header 0 (List.replicate 8 255) (start create)).socket_open = false ∧
      delivered (on_read_header 0 (List.replicate 8 255) (start create)) = [] ∧
      (on_read_header 0 (List.replicate 8 255) (start create)).escaped = none) ∧
    ((on_read_header 0 [0, 0, 0, 0, 0, 0, 0, 5] (start create)).read_message_.length = 5 ∧
      (on_read_header 0 [0, 0, 0, 0, 0, 0, 0, 5] (start create)).pending_read =
        some ReadOp.body ∧
      (on_read_header 0 [0, 0, 0, 0, 0, 0, 0, 5] (start create)).hooks =
        [Call.start_connection] ∧
      (on_read_header 0 [0, 0, 0, 0, 0, 0, 0, 5] (start create)).escaped = none) ∧
    ((on_read_header 0 [255, 255, 255, 255, 255, 255, 255, 254] (start create)).escaped =
        some VectorError.length_error ∧
      (on_read_header 0 [255, 255, 255, 255, 255, 255, 255, 254] (start create)).read_message_
        = [] ∧
      (on_read_header 0 [255, 255, 255, 255, 255, 255, 255, 254] (start create)).pending_read
        = none ∧
      (on_read_header 0 [255, 255, 255, 255, 255, 255, 255, 254] (start create)).hooks =
        [Call.start_connection]) ∧
    ((on_read_header 0 [0, 0, 0, 0, 0, 0, 0, 5]
        { start create with resize_limit := 4 }).escaped = some VectorError.bad_alloc ∧
      (on_read_header 0 [0, 0, 0, 0, 0, 0, 0, 5]
        { start create with resize_limit := 4 }).read_message_ = [] ∧
      (on_read_header 0 [0, 0, 0, 0, 0, 0, 0, 5]
        { start create with resize_limit := 4 }).pending_read = none ∧
      (on_read_header 0 [0, 0, 0, 0, 0, 0, 0, 5]
        { start create with resize_limit := 4 }).hooks = [Call.start_connection]) :=
  ⟨(C5_sentinel_header (start create) (List.replicate 8 255) (by decide) (by decide)).2.1
      (by decide),
    (C5_sentinel_header (start create) [0, 0, 0, 0, 0, 0, 0, 5] (by decide) (by decide)).2.2.1
      (by decide) (by decide) (by decide),
    (C5_sentinel_header (start create) [255, 255, 255, 255, 255, 255, 255, 254] (by decide)
      (by decide)).2.2.2.1 (by decide) (by decide),
    (C5_sentinel_header { start create with resize_limit := 4 } [0, 0, 0, 0, 0, 0, 0, 5]
      (by decide) (by decide)).2.2.2.2 (by decide) (by decide) (by decide)⟩


/-! ## Chat room -/

namespace chat_room

theorem mem_set_insert (conn x : Nat) (s : List Nat) :
    x ∈ set_insert conn s ↔ x = conn ∨ x ∈ s := by
  induction s with
  | nil => simp [set_insert]
  | cons y ys ih =>
    unfold set_insert
    split
    · simp
    · split
      · rename_i h
        subst h
        simp
      · simp only [List.mem_cons, ih]
        tauto

theorem pairwise_set_insert (conn : Nat) (s : List Nat) (h : s.Pairwise (· < ·)) :
    (set_insert conn s).Pairwise (· < ·) := by
  induction s with
  | nil => simp [set_insert]
  | cons y ys ih =>
    rw [List.pairwise_cons] at h
    unfold set_insert
    split
    · rename_i hlt
      refine List.pairwise_cons.mpr ⟨?_, List.pairwise_cons.mpr h⟩
      intro z hz
      rcases List.mem_cons.mp hz with rfl | hz
      · exact hlt
      · exact Nat.lt_trans hlt (h.1 z hz)
    · split
      · exact List.pairwise_cons.mpr h
      · rename_i hnlt hne
        refine List.pairwise_cons.mpr ⟨?_, ih h.2⟩
        intro z hz
        rcases (mem_set_insert conn z ys).mp hz with rfl | hz
        · omega
        · exact h.1 z hz

theorem pairwise_room_run (events : List RoomEvent) :
    ∀ room : chat_room, room.connections_.Pairwise (· < ·) →
      (room_run room events).connections_.Pairwise (· < ·) := by
  induction events with
  | nil => intro room h; exact h
  | cons ev rest ih =>
    intro room h
    simp only [room_run, List.foldl_cons]
    apply ih
    cases ev with
    | start_connection conn => exact pairwise_set_insert conn _ h
    | close_hook conn => exact List.Pairwise.filter _ h

theorem room_run_append (room : chat_room) (events : List RoomEvent) (ev : RoomEvent) :
    room_run room (events ++ [ev]) = room_step (room_run room events) ev := by
  simp [room_run, List.foldl_append]

theorem registered_append (events : List RoomEvent) (ev : RoomEvent) (conn : Nat) :
    Registered (events ++ [ev]) conn ↔
      ev = RoomEvent.start_connection conn ∨
        (Registered events conn ∧ ev ≠ RoomEvent.close_hook conn) := by
  constructor
  · rintro ⟨before, after, heq, hno⟩
    rcases List.eq_nil_or_concat after with rfl | ⟨init, last, rfl⟩
    · left
      have h := congrArg List.getLast? heq
      simp at h
      exact h
    · right
      have heq2 : events ++ [ev] = (before ++ RoomEvent.start_connection conn :: init) ++ [last] := by
        simp [heq]
      have h1 := List.append_inj_left' heq2 rfl
      have h2 := List.append_inj_right' heq2 rfl
      simp only [List.cons.injEq, and_true] at h2
      subst h2
      simp only [List.concat_eq_append, List.mem_append, List.mem_singleton, not_or] at hno
      exact ⟨⟨before, init, h1, hno.1⟩, fun h => hno.2 h.symm⟩
  · rintro (rfl | ⟨⟨before, after, rfl, hno⟩, hne⟩)
    · exact ⟨events, [], rfl, by simp⟩
    · refine ⟨before, after ++ [ev], by simp, ?_⟩
      simp only [List.mem_append, List.mem_singleton, not_or]
      exact ⟨hno, fun h => hne h.symm⟩

theorem mem_room_run_iff (events : List RoomEvent) (conn : Nat) :
    conn ∈ (room_run empty events).connections_ ↔ Registered events conn := by
  induction events using List.reverseRecOn with
  | nil =>
    simp only [room_run, List.foldl_nil, empty, List.not_mem_nil, false_iff]
    rintro ⟨before, after, h, _⟩
    simp at h
  | append_singleton events ev ih =>
    rw [room_run_append, registered_append, ← ih]
    cases ev with
    | start_connection d =>
      simp only [room_step, start_connection, mem_set_insert, RoomEvent.start_connection.injEq,
        ne_eq, reduceCtorEq, not_false_eq_true, and_true]
      constructor
      · rintro (h | h)
        · exact Or.inl h.symm
        · exact Or.inr h
      · rintro (h | h)
        · exact Or.inl h.symm
        · exact Or.inr h
    | close_hook d =>
      simp only [room_step, close_hook, set_erase, List.mem_filter, decide_eq_true_eq,
        reduceCtorEq, false_or, ne_eq, RoomEvent.close_hook.injEq]
      constructor
      · rintro ⟨h1, h2⟩
        exact ⟨h1, fun h => h2 h.symm⟩
      · rintro ⟨h1, h2⟩
        exact ⟨h1, fun h => h2 h.symm⟩

theorem nodup_room_run (events : List RoomEvent) :
    (room_run empty events).connections_.Nodup := by
  have h := pairwise_room_run events empty (by simp [empty])
  exact h.imp (fun hlt => Nat.ne_of_lt hlt)

theorem writes_to_read_body (conn sender : Nat) (message : List Nat) (room : chat_room) :
    writes_to conn (read_body sender message room).2 =
      if conn ≠ sender then room.connections_.count conn else 0 := by
  simp only [writes_to, read_body, List.map_map]
  have hmap : ((Prod.fst : Nat × List Nat → Nat) ∘ fun other_conn => (other_conn, message)) = id := by
    funext x
    rfl
  rw [hmap, List.map_id]
  by_cases h : conn = sender
  · subst h
    simp [List.count_eq_zero]
  · simp only [ne_eq, h, not_false_eq_true, if_true]
    rw [List.count_filter]
    simpa using h

end chat_room

open chat_room

/-- C9: after any sequence of `start_connection` and `close_hook` events on an empty room,
the set `connections_` holds exactly the connections that were registered and not closed
since; `read_body(sender, message)` returns true, every write it makes carries the raw
message, and it writes exactly once to each such connection other than the sender and
not at all to any other connection. -/
theorem C9_broadcast_recipients (events : List RoomEvent) (sender : Nat) (message : List Nat) :
    (read_body sender message (room_run empty events)).1 = true ∧
    (∀ w ∈ (read_body sender message (room_run empty events)).2, w.2 = message) ∧
    (∀ conn, conn ∈ (room_run empty events).connections_ ↔ Registered events conn) ∧
    (∀ conn, (Registered events conn ∧ conn ≠ sender →
        writes_to conn (read_body sender message (room_run empty events)).2 = 1) ∧
      (¬ (Registered events conn ∧ conn ≠ sender) →
        writes_to conn (read_body sender message (room_run empty events)).2 = 0)) := by
  refine ⟨rfl, ?_, mem_room_run_iff events, ?_⟩
  · intro w hw
    simp only [read_body, List.mem_map] at hw
    obtain ⟨x, _, rfl⟩ := hw
    rfl
  · intro conn
    rw [writes_to_read_body, ← mem_room_run_iff]
    constructor
    · rintro ⟨hmem, hne⟩
      simp only [ne_eq, hne, not_false_eq_true, if_true]
      exact List.count_eq_one_of_mem (nodup_room_run events) hmem
    · intro h
      by_cases hne : conn = sender
      · simp [hne]
      · simp only [ne_eq, hne, not_false_eq_true, if_true]
        exact List.count_eq_zero_of_not_mem (fun hmem => h ⟨hmem, hne⟩)

/-- C9 (witness): with A = 1, B = 2, C = 3 registered, a message from A is written once to B,
once to C and never to A; after the `close_hook` of C a message from A is written to B only. -/
theorem C9_broadcast_recipients_witness :
    writes_to 2 (read_body 1 [104, 105] (room_run empty
      [RoomEvent.start_connection 1, RoomEvent.start_connection 2,
        RoomEvent.start_connection 3])).2 = 1 ∧
    writes_to 1 (read_body 1 [104, 105] (room_run empty
      [RoomEvent.start_connection 1, RoomEvent.start_connection 2,
        RoomEvent.start_connection 3])).2 = 0 ∧
    (read_body 1 [104, 105] (room_run empty
      [RoomEvent.start_connection 1, RoomEvent.start_connection 2,
        RoomEvent.start_connection 3])).2 = [(2, [104, 105]), (3, [104, 105])] ∧
    (read_body 1 [104, 105] (room_run empty
      [RoomEvent.start_connection 1, RoomEvent.start_connection 2,
        RoomEvent.start_connection 3, RoomEvent.close_hook 3])).2 = [(2, [104, 105])] :=
  ⟨((C9_broadcast_recipients [RoomEvent.start_connection 1, RoomEvent.start_connection 2,
      RoomEvent.start_connection 3] 1 [104, 105]).2.2.2 2).1
      ⟨⟨[RoomEvent.start_connection 1], [RoomEvent.start_connection 3], rfl, by decide⟩,
        by decide⟩,
    ((C9_broadcast_recipients [RoomEvent.start_connection 1, RoomEvent.start_connection 2,
      RoomEvent.start_connection 3] 1 [104, 105]).2.2.2 1).2 (fun h => h.2 rfl),
    by decide, by decide⟩


/-! ## Chat bot -/

namespace chat_bot

theorem find_if_append_of_false (p : Char → Bool) (l r : List Char)
    (h : ∀ c ∈ l, p c = false) : ∀ i, find_if p (l ++ r) i = find_if p r (i + l.length) := by
  induction l with
  | nil => intro i; simp
  | cons x xs ih =>
    intro i
    have hx : p x = false := h x (List.mem_cons_self _ _)
    have hxs : ∀ c ∈ xs, p c = false := fun c hc => h c (List.mem_cons_of_mem _ hc)
    rw [List.cons_append, find_if, if_neg (by simp [hx]), ih hxs, List.length_cons,
      Nat.add_assoc, Nat.add_comm 1]

theorem find_if_cons_of_true (p : Char → Bool) (c : Char) (r : List Char) (i : Nat)
    (h : p c = true) : find_if p (c :: r) i = i := by
  simp [find_if, h]

theorem find_space (w rest : List Char) (hw : ∀ c ∈ w, c ≠ ' ') :
    find (w ++ ' ' :: rest) ' ' = w.length := by
  unfold find
  rw [find_if_append_of_false _ _ _ (by simpa using hw), find_if_cons_of_true _ _ _ _ (by simp)]
  simp

theorem find_first_not_of_spaces (k : Nat) (c : Char) (rest : List Char) (hc : c ≠ ' ') :
    find_first_not_of (List.replicate k ' ' ++ c :: rest) ' ' = k := by
  unfold find_first_not_of
  rw [find_if_append_of_false _ _ _ (by simp),
    find_if_cons_of_true _ _ _ _ (by simpa using hc)]
  simp

/-- What `response` does on a message made of `k` spaces, a word `w` without spaces, one
space and the rest. -/
theorem response_command (k : Nat) (c : Char) (w rest : List Char) (hc : c ≠ ' ')
    (hw : ∀ x ∈ w, x ≠ ' ')
    (hsize : (List.replicate k ' ' ++ (c :: w) ++ ' ' :: rest).length < 2 ^ 64) :
    response (List.replicate k ' ' ++ (c :: w) ++ ' ' :: rest) =
      if c :: w = "!echo".toList then pure [rest]
      else if c :: w = "!eval".toList then
        match calculate rest with
        | Except.ok answer => pure [to_string answer]
        | Except.error (Fault.thrown _) => pure ["Invalid input to eval".toList]
        | Except.error Fault.undefined_behaviour => throw Fault.undefined_behaviour
      else pure [] := by
  simp only [List.length_append, List.length_replicate, List.length_cons] at hsize
  have hpos : find_first_not_of (List.replicate k ' ' ++ (c :: w) ++ ' ' :: rest) ' ' = k := by
    rw [List.append_assoc, List.cons_append]
    exact find_first_not_of_spaces k c _ hc
  have hk : k ≠ npos := by
    unfold npos
    omega
  have hw2 : ∀ x ∈ c :: w, x ≠ ' ' := by
    intro x hx
    rcases List.mem_cons.mp hx with rfl | hx
    · exact hc
    · exact hw x hx
  have htrim : substr_from (List.replicate k ' ' ++ (c :: w) ++ ' ' :: rest) k =
      Except.ok ((c :: w) ++ ' ' :: rest) := by
    unfold substr_from
    rw [if_pos (by simp only [List.length_append, List.length_replicate]; omega)]
    rw [List.append_assoc, List.drop_left' (by simp)]
    rfl
  have hfirst : substr ((c :: w) ++ ' ' :: rest) 0 (c :: w).length = Except.ok (c :: w) := by
    unfold substr
    rw [if_pos (Nat.zero_le _), List.drop_zero, List.take_left' rfl]
    rfl
  have hadd : size_add (c :: w).length 1 = (c :: w).length + 1 := by
    unfold size_add
    apply Nat.mod_eq_of_lt
    simp only [List.length_cons]
    omega
  have hrest : substr_from ((c :: w) ++ ' ' :: rest) ((c :: w).length + 1) = Except.ok rest := by
    unfold substr_from
    rw [if_pos (by simp only [List.length_append, List.length_cons]; omega)]
    have : (c :: w) ++ ' ' :: rest = ((c :: w) ++ [' ']) ++ rest := by simp
    rw [this, List.drop_left' (by simp)]
    rfl
  unfold response
  simp only [hpos, hk, ne_eq, not_false_eq_true, if_true, htrim, find_space _ _ hw2, hfirst,
    hadd, hrest, bind, Except.bind]

theorem isdigit_ne_space (c : Char) (h : isdigit c = true) : isspace c = false := by
  simp only [isdigit, Bool.and_eq_true, decide_eq_true_eq] at h
  simp only [isspace, Bool.or_eq_false_iff, decide_eq_false_iff_not]
  refine ⟨⟨⟨⟨⟨?_, ?_⟩, ?_⟩, ?_⟩, ?_⟩, ?_⟩ <;>
  · rintro rfl
    revert h
    decide

theorem isdigit_ne_sign (c : Char) (h : isdigit c = true) : c ≠ '-' ∧ c ≠ '+' ∧ c ≠ ' ' := by
  simp only [isdigit, Bool.and_eq_true, decide_eq_true_eq] at h
  refine ⟨?_, ?_, ?_⟩ <;>
  · rintro rfl
    revert h
    decide

theorem takeWhile_isdigit_self (ds : List Char) (h : ∀ c ∈ ds, isdigit c = true) :
    ds.takeWhile isdigit = ds := by
  rw [List.takeWhile_eq_self_iff]
  exact h

theorem stoi_digits (ds : List Char) (hne : ds ≠ []) (h : ∀ c ∈ ds, isdigit c = true)
    (hfit : fits_int (digits_value ds : Int) = true) :
    stoi ds = Except.ok (digits_value ds : Int) := by
  obtain ⟨d, rest, rfl⟩ := List.exists_cons_of_ne_nil hne
  have hd := h d (List.mem_cons_self _ _)
  have hsp := isdigit_ne_space d hd
  have hsg := isdigit_ne_sign d hd
  unfold stoi
  simp only [List.dropWhile_cons, hsp, Bool.false_eq_true, if_false, List.head?_cons,
    Option.some.injEq, hsg.1, hsg.2.1, or_self, decide_False, takeWhile_isdigit_self _ h,
    reduceCtorEq, hfit, if_true]
  rfl

theorem stoi_minus_digits (ds : List Char) (hne : ds ≠ []) (h : ∀ c ∈ ds, isdigit c = true)
    (hfit : fits_int (-(digits_value ds : Int)) = true) :
    stoi ('-' :: ds) = Except.ok (-(digits_value ds : Int)) := by
  have hsp : isspace '-' = false := by decide
  unfold stoi
  simp only [List.dropWhile_cons, hsp, Bool.false_eq_true, if_false, List.head?_cons,
    true_or, if_true, List.tail_cons, decide_True, takeWhile_isdigit_self _ h, hne, hfit]
  rfl

theorem stoi_decimal (text : List Char) (v : Int) (h : Decimal text v)
    (hfit : fits_int v = true) : stoi text = Except.ok v := by
  obtain ⟨ds, hne, hds, ⟨ht, hv⟩ | ⟨ht, hv⟩⟩ := h
  · rw [hv] at hfit
    rw [ht, hv]
    exact stoi_digits ds hne hds hfit
  · rw [hv] at hfit
    rw [ht, hv]
    exact stoi_minus_digits ds hne hds hfit

theorem decimal_no_space (text : List Char) (v : Int) (h : Decimal text v) :
    ∀ c ∈ text, c ≠ ' ' := by
  obtain ⟨ds, _, hds, ⟨ht, _⟩ | ⟨ht, _⟩⟩ := h
  · rw [ht]
    exact fun c hc => (isdigit_ne_sign c (hds c hc)).2.2
  · rw [ht]
    intro c hc
    rcases List.mem_cons.mp hc with rfl | hc
    · decide
    · exact (isdigit_ne_sign c (hds c hc)).2.2

theorem isdigit_digit_char (d : Nat) (h : d < 10) :
    isdigit (digit_char d) = true ∧ digit_value (digit_char d) = d := by
  interval_cases d <;> decide

theorem nat_digits_spec : ∀ fuel n : Nat, n < fuel →
    nat_digits fuel n ≠ [] ∧ (∀ c ∈ nat_digits fuel n, isdigit c = true) ∧
      digits_value (nat_digits fuel n) = n := by
  intro fuel
  induction fuel with
  | zero => intro n h; omega
  | succ fuel ih =>
    intro n h
    unfold nat_digits
    split
    · rename_i hlt
      have hd := isdigit_digit_char n hlt
      refine ⟨by simp, ?_, ?_⟩
      · intro c hc
        rw [List.mem_singleton] at hc
        rw [hc]
        exact hd.1
      · simp [digits_value, hd.2]
    · rename_i hge
      have hrec := ih (n / 10) (by omega)
      have hd := isdigit_digit_char (n % 10) (Nat.mod_lt _ (by decide))
      refine ⟨by simp, ?_, ?_⟩
      · intro c hc
        rcases List.mem_append.mp hc with hc | hc
        · exact hrec.2.1 c hc
        · rw [List.mem_singleton] at hc
          rw [hc]
          exact hd.1
      · have hv := hrec.2.2
        unfold digits_value at hv ⊢
        rw [List.foldl_append, hv]
        simp only [List.foldl_cons, List.foldl_nil, hd.2]
        omega

theorem decimal_to_string (v : Int) : Decimal (to_string v) v := by
  have h := nat_digits_spec (v.natAbs + 1) v.natAbs (Nat.lt_succ_self _)
  refine ⟨nat_to_string v.natAbs, h.1, h.2.1, ?_⟩
  have hv : digits_value (nat_to_string v.natAbs) = v.natAbs := h.2.2
  unfold to_string
  by_cases hneg : v < 0
  · right
    rw [if_pos hneg, hv]
    exact ⟨rfl, by omega⟩
  · left
    rw [if_neg hneg, hv]
    exact ⟨rfl, by omega⟩

/-- What `calculate` does on two decimal numerals separated by a space, one character and
one more character. -/
theorem calculate_decimal (A B : List Char) (a b : Int) (op sep : Char)
    (hA : Decimal A a) (hB : Decimal B b) (ha : fits_int a = true) (hb : fits_int b = true)
    (hsize : (A ++ ' ' :: op :: sep :: B).length < 2 ^ 64) :
    calculate (A ++ ' ' :: op :: sep :: B) =
      if op = '+' then int_result (a + b)
      else if op = '-' then int_result (a - b)
      else if op = '/' then
        if b = 0 then throw Fault.undefined_behaviour else int_result (Int.tdiv a b)
      else if op = '*' then int_result (a * b)
      else throw (Fault.thrown Exn.bad_operator) := by
  simp only [List.length_append, List.length_cons] at hsize
  have hfind := find_space A (op :: sep :: B) (decimal_no_space A a hA)
  have hfirst : substr (A ++ ' ' :: op :: sep :: B) 0 A.length = Except.ok A := by
    unfold substr
    rw [if_pos (Nat.zero_le _), List.drop_zero, List.take_left' rfl]
    rfl
  have hadd1 : size_add A.length 1 = A.length + 1 := by
    unfold size_add
    exact Nat.mod_eq_of_lt (by omega)
  have hadd2 : size_add A.length 2 = A.length + 2 := by
    unfold size_add
    exact Nat.mod_eq_of_lt (by omega)
  have hadd3 : size_add (A.length + 2) 1 = A.length + 3 := by
    unfold size_add
    exact Nat.mod_eq_of_lt (by omega)
  have hop : string_at (A ++ ' ' :: op :: sep :: B) (A.length + 1) = Except.ok op := by
    unfold string_at
    have : (A ++ ' ' :: op :: sep :: B).get? (A.length + 1) = some op := by
      rw [List.get?_eq_getElem?, List.getElem?_append_right (by omega)]
      simp
    rw [this]
    rfl
  have hsecond : substr_from (A ++ ' ' :: op :: sep :: B) (A.length + 3) = Except.ok B := by
    unfold substr_from
    rw [if_pos (by simp only [List.length_append, List.length_cons]; omega)]
    have : A ++ ' ' :: op :: sep :: B = (A ++ [' ', op, sep]) ++ B := by simp
    rw [this, List.drop_left' (by simp)]
    rfl
  unfold calculate
  simp only [hfind, hfirst, hadd1, hadd2, hadd3, hop, hsecond, stoi_decimal A a hA ha,
    stoi_decimal B b hB hb, bind, Except.bind]

theorem calculate_exact (A B : List Char) (a b : Int) (op : Char)
    (hA : Decimal A a) (hB : Decimal B b)
    (hop : op = '+' ∨ op = '-' ∨ op = '*' ∨ op = '/')
    (ha : fits_int a = true) (hb : fits_int b = true) (hdiv : op = '/' → b ≠ 0)
    (hr : fits_int (exact_result op a b) = true)
    (hsize : (A ++ ' ' :: op :: ' ' :: B).length < 2 ^ 64) :
    calculate (A ++ ' ' :: op :: ' ' :: B) = Except.ok (exact_result op a b) := by
  rw [calculate_decimal A B a b op ' ' hA hB ha hb hsize]
  rcases hop with rfl | rfl | rfl | rfl
  · have he : exact_result '+' a b = a + b := by simp [exact_result]
    rw [he] at hr
    simp [int_result, hr, he]
    rfl
  · have he : exact_result '-' a b = a - b := by simp [exact_result]
    rw [he] at hr
    simp [int_result, hr, he]
    rfl
  · have he : exact_result '*' a b = a * b := by simp [exact_result]
    rw [he] at hr
    simp [int_result, hr, he]
    rfl
  · have he : exact_result '/' a b = Int.tdiv a b := by simp [exact_result]
    rw [he] at hr
    simp [int_result, hr, he, hdiv rfl]
    rfl

end chat_bot

open chat_bot

/-- C6 (evaluation at the failing input): for "!eval 10 / 0" the method `calculate` reaches
the `int` division with a zero divisor; that is no exception, the handler `catch(...)`
does not apply, no reply is sent and `read_body` does not return true.  The non-numeric
operand of "!eval abc + 1" does raise an exception and is answered by the error text. -/
theorem C6_division_by_zero_is_not_caught :
    calculate "10 / 0".toList = Except.error Fault.undefined_behaviour ∧
    response "!eval 10 / 0".toList = Except.error Fault.undefined_behaviour ∧
    chat_bot.read_body "!eval 10 / 0".toList = Except.error Fault.undefined_behaviour ∧
    chat_bot.read_body "!eval abc + 1".toList =
      Except.ok (true, ["Invalid input to eval".toList]) := by
  refine ⟨?_, ?_, ?_, ?_⟩ <;> rfl

/-- C7 (evaluation at the failing inputs): `calculate` returns 7, and the bot replies "7",
for "3 + 4abc" (junk after the second number), "3x + 4" (junk after the first number),
"3 +x4" (a character other than a space after the operator) and "3 +  4" (two spaces). -/
theorem C7_grammar_is_not_exact :
    calculate "3 + 4abc".toList = Except.ok 7 ∧
    calculate "3x + 4".toList = Except.ok 7 ∧
    calculate "3 +x4".toList = Except.ok 7 ∧
    calculate "3 +  4".toList = Except.ok 7 ∧
    chat_bot.read_body "!eval 3 + 4abc".toList = Except.ok (true, ["7".toList]) := by
  refine ⟨?_, ?_, ?_, ?_, ?_⟩ <;> rfl


/-- C8: `A` and `B` are the integers `a` and `b` written in decimal, `op` is one of
`+ - * /`, the divisor is not zero for `/`, and `a`, `b` and the exact result fit in a
signed 32-bit `int`.  Then `read_body` on the message "!eval A op B" returns true and
sends exactly one reply, the text `std::to_string` gives for the exact result, which is
that result written in decimal. -/
theorem C8_eval_result (A B : List Char) (a b : Int) (op : Char)
    (hA : Decimal A a) (hB : Decimal B b)
    (hop : op = '+' ∨ op = '-' ∨ op = '*' ∨ op = '/')
    (ha : fits_int a = true) (hb : fits_int b = true) (hdiv : op = '/' → b ≠ 0)
    (hr : fits_int (exact_result op a b) = true)
    (hsize : ("!eval ".toList ++ A ++ ' ' :: op :: ' ' :: B).length < 2 ^ 64) :
    chat_bot.read_body ("!eval ".toList ++ A ++ ' ' :: op :: ' ' :: B) =
      Except.ok (true, [to_string (exact_result op a b)]) ∧
    Decimal (to_string (exact_result op a b)) (exact_result op a b) := by
  refine ⟨?_, decimal_to_string _⟩
  have hmsg : "!eval ".toList ++ A ++ ' ' :: op :: ' ' :: B =
      List.replicate 0 ' ' ++ ['!', 'e', 'v', 'a', 'l'] ++ ' ' :: (A ++ ' ' :: op :: ' ' :: B) := by
    simp
  rw [hmsg] at hsize ⊢
  have hcalc := calculate_exact A B a b op hA hB hop ha hb hdiv hr (by
    simp only [List.length_append, List.length_cons, List.length_replicate] at hsize ⊢
    omega)
  have h := response_command 0 '!' ['e', 'v', 'a', 'l'] (A ++ ' ' :: op :: ' ' :: B)
    (by decide) (by decide) hsize
  have hecho : ¬ (['!', 'e', 'v', 'a', 'l'] = "!echo".toList) := by decide
  have heval : ['!', 'e', 'v', 'a', 'l'] = "!eval".toList := rfl
  rw [if_neg hecho, if_pos heval, hcalc] at h
  unfold chat_bot.read_body
  rw [h]
  rfl

/-- C8 (witness): "!eval 3 + 4" is answered by "7". -/
theorem C8_eval_result_witness :
    chat_bot.read_body "!eval 3 + 4".toList = Except.ok (true, ["7".toList]) ∧
    Decimal "7".toList 7 :=
  C8_eval_result ['3'] ['4'] 3 4 '+'
    ⟨['3'], by decide, by decide, Or.inl ⟨rfl, by decide⟩⟩
    ⟨['4'], by decide, by decide, Or.inl ⟨rfl, by decide⟩⟩
    (Or.inl rfl) (by decide) (by decide) (by decide) (by decide) (by decide)

/-- C10: for every string `s` and every number of leading spaces (the whole message
being a `std::string`, shorter than 2^64), the bot answers the message "!echo " followed
by `s` with exactly one reply, whose text is `s`, and `read_body` returns true. -/
theorem C10_echo (spaces : Nat) (s : List Char)
    (hsize : (List.replicate spaces ' ' ++ "!echo ".toList ++ s).length < 2 ^ 64) :
    response (List.replicate spaces ' ' ++ "!echo ".toList ++ s) = Except.ok [s] ∧
    chat_bot.read_body (List.replicate spaces ' ' ++ "!echo ".toList ++ s) =
      Except.ok (true, [s]) := by
  have h := response_command spaces '!' ['e', 'c', 'h', 'o'] s (by decide) (by decide)
    (by simpa using hsize)
  have hmsg : List.replicate spaces ' ' ++ "!echo ".toList ++ s =
      List.replicate spaces ' ' ++ ['!', 'e', 'c', 'h', 'o'] ++ ' ' :: s := by
    simp
  have hword : ['!', 'e', 'c', 'h', 'o'] = "!echo".toList := rfl
  rw [if_pos hword] at h
  unfold chat_bot.read_body
  rw [hmsg, h]
  exact ⟨rfl, rfl⟩

/-- C10 (witness): "!echo hello world" is answered by "hello world". -/
theorem C10_echo_witness :
    response "!echo hello world".toList = Except.ok ["hello world".toList] ∧
    chat_bot.read_body "!echo hello world".toList = Except.ok (true, ["hello world".toList]) :=
  C10_echo 0 "hello world".toList (by decide)

/-- C11: for every length `v`, `encode_header(v)` is the array of seven zero bytes followed
by the byte `v mod 256`, and `decode_header` of it is `v mod 256`.  So the round trip
returns `v` exactly when `v < 256`, and no `v` is encoded as the header of eight 0xFF
bytes nor decoded back as the largest `std::size_t`. -/
theorem C11_encode_header_low_byte (v : Nat) :
    encode_header v = [0, 0, 0, 0, 0, 0, 0, v % 256] ∧
    decode_header (encode_header v) = v % 256 ∧
    (decode_header (encode_header v) = v ↔ v < 256) ∧
    encode_header v ≠ List.replicate length 255 ∧
    decode_header (encode_header v) ≠ size_max := by
  have hlt : v % 256 < 256 := Nat.mod_lt _ (by decide)
  have henc : encode_header v = [0, 0, 0, 0, 0, 0, 0, v % 256] := by
    simp only [encode_header, encode_byte, length, bits_in_byte, size_modulus, List.range,
      List.range.loop, List.map_cons, List.map_nil, Nat.one_shiftLeft]
    norm_num
    omega
  have hdec : decode_header (encode_header v) = v % 256 := by
    rw [henc, decode_header_eight 0 0 0 0 0 0 0 (v % 256) (by decide) (by decide) (by decide)
      (by decide) (by decide) (by decide) (by decide) hlt]
    omega
  refine ⟨henc, hdec, ?_, ?_, ?_⟩
  · rw [hdec]
    constructor
    · intro h
      omega
    · intro h
      exact Nat.mod_eq_of_lt h
  · rw [henc]
    simp [length, List.replicate]
  · rw [hdec]
    simp only [size_max, size_modulus, bits_in_byte, length]
    omega

end TcpServerClient
